import Mathlib

/-!
Shallow embedding of the `egui_inspect_derive` code generator
(`src/egui_inspect_derive/src/lib.rs` and `src/egui_inspect_derive/src/utils.rs`).

The crate is a proc-macro: it consumes a `syn`-level description of a Rust
type (named fields, unnamed fields, unit shapes, enum variants, generic
parameters, per-field `#[inspect(...)]` attributes) and emits two rendering
procedures, `inspect` (read-only) and `inspect_mut` (editable).  We embed the
generator as pure functions from a type description to an abstract description
of the emitted rendering program: each emitted per-field statement becomes a
`RenderCall` value, the emitted enum machinery becomes an `EnumRender` value,
and the whole derive becomes a `DeriveOutput` (or an error, for the
`unimplemented!` union arm).

`f32` attribute values (`min`, `max`) only occur as stored literals — the
generator performs no floating-point arithmetic on them — and the two default
literals `0.0` and `100.0` are exactly representable, so they are embedded as
rationals.
-/

namespace EguiInspectDerive

/-- Raw per-field attribute overrides, before `darling`'s merge with
`Default::default()`: `none` in a component means the corresponding
`#[inspect(...)]` key was not written on the field. -/
structure RawAttrs where
  name : Option String
  hide : Option Bool
  no_edit : Option Bool
  slider : Option Bool
  min : Option Rat
  max : Option Rat
  multiline : Option Bool
  custom_func : Option String
  custom_func_mut : Option String
  deriving DecidableEq, Repr

/-- The fully resolved `AttributeArgs` record of `lib.rs` (lines 14-35). -/
structure AttributeArgs where
  name : Option String
  hide : Bool
  no_edit : Bool
  slider : Bool
  min : Rat
  max : Rat
  multiline : Bool
  custom_func : Option String
  custom_func_mut : Option String
  deriving DecidableEq, Repr

/-- The `impl Default for AttributeArgs` block of `lib.rs` (lines 37-51). -/
def AttributeArgs.default : AttributeArgs :=
  ⟨none, false, false, true, 0, 100, false, none, none⟩

/-- Resolution performed by `#[darling(attributes(inspect), default)]`:
every key not written on the field takes the value from
`AttributeArgs::default()`.  Resolution is total: an absent override is never
an error. -/
def from_raw (r : RawAttrs) : AttributeArgs :=
  ⟨(match r.name with | some n => some n | none => AttributeArgs.default.name),
   r.hide.getD AttributeArgs.default.hide,
   r.no_edit.getD AttributeArgs.default.no_edit,
   r.slider.getD AttributeArgs.default.slider,
   r.min.getD AttributeArgs.default.min,
   r.max.getD AttributeArgs.default.max,
   r.multiline.getD AttributeArgs.default.multiline,
   (match r.custom_func with | some n => some n | none => AttributeArgs.default.custom_func),
   (match r.custom_func_mut with | some n => some n | none => AttributeArgs.default.custom_func_mut)⟩

/-- A named struct or enum-payload field: identifier, declared type, raw
attributes. -/
structure NamedField where
  ident : String
  ty : String
  attrs : RawAttrs
  deriving DecidableEq, Repr

/-- The `AttributeArgs::from_field(f)` call of `lib.rs` line 215. -/
def AttributeArgs.from_field (f : NamedField) : AttributeArgs :=
  from_raw f.attrs

/-- A positional (tuple) field: declared type and raw attributes.  (The
attributes are carried in the `syn` data; whether the generator consults them
is a property of the code under study.) -/
structure UnnamedField where
  ty : String
  attrs : RawAttrs
  deriving DecidableEq, Repr

/-- The `syn::Fields` shape: named, unnamed (positional) or unit. -/
inductive Fields where
  | named (fields : List NamedField)
  | unnamed (fields : List UnnamedField)
  | unit
  deriving DecidableEq, Repr

/-- How an emitted statement reaches the field value: `self.#ident`,
`self.#tuple_index`, or dereference of a match binding (`*#ident`,
`*__field{i}`). -/
inductive FieldAccess where
  | self_named (ident : String)
  | self_index (i : Nat)
  | deref_ident (ident : String)
  deriving DecidableEq, Repr

/-- Abstract description of a widget call emitted by the
`internal_paths::try_handle_internal_path` fallback (see `InternalPathFn`). -/
structure WidgetCall where
  tag : String
  deriving DecidableEq, Repr

/-- One emitted per-field rendering statement. -/
inductive RenderCall where
  | inspect (fa : FieldAccess) (label : String)
  | inspect_mut (fa : FieldAccess) (label : String)
  | custom_read (path : String) (fa : FieldAccess) (label : String)
  | custom_mut (path : String) (fa : FieldAccess) (label : String)
  | internal (w : WidgetCall)
  deriving DecidableEq, Repr

/-- Display name shown by an emitted statement (the `#name_str` argument). -/
def RenderCall.shown_label : RenderCall → String
  | RenderCall.inspect _ l => l
  | RenderCall.inspect_mut _ l => l
  | RenderCall.custom_read _ _ l => l
  | RenderCall.custom_mut _ _ l => l
  | RenderCall.internal w => w.tag

/-- Whether a statement invokes a field's custom mutable function. -/
def RenderCall.is_custom_mut : RenderCall → Bool
  | RenderCall.custom_mut _ _ _ => true
  | _ => false

/-- `utils::get_default_function_call` (utils.rs lines 23-36): the standard
dispatch calls `egui_inspect::EguiInspect::inspect_mut(&mut field, name, ui)`
when mutable, else `egui_inspect::EguiInspect::inspect(&field, name, ui)`. -/
def get_default_function_call (name : String) (field : FieldAccess) (mutable : Bool) : RenderCall :=
  if mutable then RenderCall.inspect_mut field name else RenderCall.inspect field name

/-- The display-name resolution repeated in `lib.rs` (lines 231-234 and
263-266): the `name` attribute if set, else the field's own identifier. -/
def resolved_label (attrs : AttributeArgs) (fallback : String) : String :=
  match attrs.name with
  | some n => n
  | none => fallback

/-- `handle_custom_func` (lib.rs lines 260-291).  Note that the `mutable`
argument it receives at the call site (line 223) already has `no_edit` folded
in (line 221), and that the emitted custom call always accesses
`self.#name`. -/
def handle_custom_func (field : NamedField) (mutable : Bool) (attrs : AttributeArgs) : Option RenderCall :=
  let name_str := resolved_label attrs field.ident
  if mutable && !attrs.no_edit && attrs.custom_func_mut.isSome then
    attrs.custom_func_mut.map
      (fun p => RenderCall.custom_mut p (FieldAccess.self_named field.ident) name_str)
  else if (!mutable || (mutable && attrs.no_edit)) && attrs.custom_func.isSome then
    attrs.custom_func.map
      (fun p => RenderCall.custom_read p (FieldAccess.self_named field.ident) name_str)
  else
    none

/-- Interface of the `internal_paths` module.  The repository declares
`mod internal_paths;` and calls `internal_paths::try_handle_internal_path(&f,
mutable, &attr)` (lib.rs line 227), but `internal_paths.rs` itself is not
among the provided sources.  Per the specification (section 4.2, the
Type-to-Widget Mapper) it may recognize certain field types and emit a
type-specialized standard widget call (slider, multiline text editor, ...)
honoring the resolved configuration, or decline with `None`; it is part of the
standard dispatch and never invokes a field's custom functions.  We therefore
treat it as an arbitrary decision function producing an abstract
`WidgetCall`; every theorem below holds for all such functions. -/
def InternalPathFn : Type :=
  NamedField → Bool → AttributeArgs → Option WidgetCall

/-- Standard dispatch for a named field (lib.rs lines 227-241): first the
internal-path fallback, then `get_default_function_call` on `self.#ident`
(when `use_self`) or on the dereferenced match binding `*#ident`. -/
def standard_field_call (ti : InternalPathFn) (f : NamedField) (use_self mutable : Bool)
    (attr : AttributeArgs) : RenderCall :=
  match ti f mutable attr with
  | some w => RenderCall.internal w
  | none =>
    let name_str := resolved_label attr f.ident
    let var := if use_self then FieldAccess.self_named f.ident else FieldAccess.deref_ident f.ident
    get_default_function_call name_str var mutable

/-- The non-hidden path of the per-field closure in `inspect_named_fields`
(lib.rs lines 221-241): fold `no_edit` into the mode, try the custom
functions, then the standard dispatch. -/
def named_field_call (ti : InternalPathFn) (use_self mutable : Bool) (f : NamedField) : RenderCall :=
  let attr := AttributeArgs.from_field f
  let m := mutable && !attr.no_edit
  match handle_custom_func f m attr with
  | some ts => ts
  | none => standard_field_call ti f use_self m attr

/-- The whole per-field closure of `inspect_named_fields` (lib.rs lines
214-242): a hidden field maps to the empty token stream `quote!()`
(lines 217-219), every other field to exactly one statement. -/
def inspect_named_field (ti : InternalPathFn) (use_self mutable : Bool) (f : NamedField) :
    List RenderCall :=
  let attr := AttributeArgs.from_field f
  if attr.hide then [] else [named_field_call ti use_self mutable f]

/-- `inspect_named_fields` (lib.rs lines 213-243): one token stream per
declared field, in declaration order. -/
def inspect_named_fields (ti : InternalPathFn) (fields : List NamedField) (use_self mutable : Bool) :
    List (List RenderCall) :=
  fields.map (inspect_named_field ti use_self mutable)

/-- `inspect_unnamed_fields` (lib.rs lines 245-258): iterates
`enumerate()` and ignores the field itself (`|(i, _)|`), synthesizing the
label `"Field i"` and accessing `self.#tuple_index` (when `use_self`) or the
match binding `*__field{i}`. -/
def inspect_unnamed_fields (fields : List UnnamedField) (use_self mutable : Bool) :
    List (List RenderCall) :=
  fields.enum.map (fun p =>
    let name := "Field " ++ toString p.1
    let var := if use_self then FieldAccess.self_index p.1
               else FieldAccess.deref_ident ("__field" ++ toString p.1)
    [get_default_function_call name var mutable])

/-- `inspect_fields` (lib.rs lines 205-211). -/
def inspect_fields (ti : InternalPathFn) (fields : Fields) (use_self mutable : Bool) :
    List (List RenderCall) :=
  match fields with
  | Fields.named fs => inspect_named_fields ti fs use_self mutable
  | Fields.unnamed fs => inspect_unnamed_fields fs use_self mutable
  | Fields.unit => []

/-- One enum variant: symbolic tag plus payload shape. -/
structure Variant where
  ident : String
  fields : Fields
  deriving DecidableEq, Repr

/-- An argument expression inside the replacement constructor emitted by
`variant_combo`; the generator only ever emits `Default::default()`. -/
inductive Expr where
  | default_call
  deriving DecidableEq, Repr

/-- The `ui.selectable_value(self, #struct_name::#ident ..., stringify!(#ident))`
option emitted by `variant_combo`: target constructor, its argument list
(with the field name for named payloads), and the displayed text. -/
structure ComboOption where
  ident : String
  args : List (Option String × Expr)
  text : String
  deriving DecidableEq, Repr

/-- `variant_combo` (lib.rs lines 153-179): the replacement value built for a
variant fills every payload field with `Default::default()`. -/
def variant_combo (v : Variant) : ComboOption :=
  match v.fields with
  | Fields.named fs => ⟨v.ident, fs.map (fun f => (some f.ident, Expr.default_call)), v.ident⟩
  | Fields.unnamed fs => ⟨v.ident, fs.map (fun _ => (none, Expr.default_call)), v.ident⟩
  | Fields.unit => ⟨v.ident, [], v.ident⟩

/-- The variant-tag control emitted by `inspect_enum` (lib.rs lines 114-126):
in editable mode a `ComboBox` whose body holds one `selectable_value` per
variant, in read-only mode just `ui.label(current_variant)`. -/
inductive EnumSelector where
  | label_current
  | combo (opts : List ComboOption)
  deriving DecidableEq, Repr

/-- Abstract description of the body emitted by `inspect_enum`: the
`reflect_variant_name` match arms (one tag per variant, payload ignored by
the `{..}` / `(..)` patterns), the selector control, and one field-dispatch
arm per variant. -/
structure EnumRender where
  name_arms : List String
  selector : EnumSelector
  inspect_arms : List (String × List (List RenderCall))
  deriving DecidableEq, Repr

/-- `variant_inspect_arm` (lib.rs lines 181-203): the arm for a variant
destructures the payload and runs `inspect_fields` with `use_self = false`;
the unit arm emits `()`, i.e. no calls. -/
def variant_inspect_arm (ti : InternalPathFn) (v : Variant) (mutable : Bool) :
    String × List (List RenderCall) :=
  (v.ident, inspect_fields ti v.fields false mutable)

/-- `inspect_enum` (lib.rs lines 105-136). -/
def inspect_enum (ti : InternalPathFn) (variants : List Variant) (mutable : Bool) : EnumRender :=
  ⟨variants.map (fun v => v.ident),
   (if mutable then EnumSelector.combo (variants.map variant_combo)
    else EnumSelector.label_current),
   variants.map (fun v => variant_inspect_arm ti v mutable)⟩

/-- The `syn::Data` shape of the derive input. -/
inductive Data where
  | struct (fields : Fields)
  | enum (variants : List Variant)
  | union
  deriving DecidableEq, Repr

/-- Body of one generated rendering procedure: a struct body is
`ui.strong(label);` followed by the per-field statements; an enum body is the
`EnumRender` machinery (which also emits `ui.strong(label)`). -/
inductive InspectBody where
  | struct_body (fields : List (List RenderCall))
  | enum_body (er : EnumRender)
  deriving DecidableEq, Repr

/-- `inspect_data` (lib.rs lines 91-103).  The union arm is
`unimplemented!("Unions are not yet supported")`: a panic at macro expansion
time, i.e. generation aborts with that message and no body is produced. -/
def inspect_data (ti : InternalPathFn) (data : Data) (name : String) (mutable : Bool) :
    Except String InspectBody :=
  match data with
  | Data.struct fields =>
      Except.ok (InspectBody.struct_body (inspect_fields ti fields true mutable))
  | Data.enum variants =>
      Except.ok (InspectBody.enum_body (inspect_enum ti variants mutable))
  | Data.union => Except.error "not implemented: Unions are not yet supported"

/-- A generic parameter of the derive input. -/
inductive GenericParam where
  | type_param (ident : String) (bounds : List String)
  | lifetime_param (ident : String)
  | const_param (ident : String)
  deriving DecidableEq, Repr

/-- `add_trait_bounds` (lib.rs lines 80-89): pushes the
`egui_inspect::EguiInspect` bound onto every type parameter, leaving
lifetime and const parameters untouched. -/
def add_trait_bounds (generics : List GenericParam) : List GenericParam :=
  generics.map (fun p =>
    match p with
    | GenericParam.type_param id bs =>
        GenericParam.type_param id (bs ++ ["egui_inspect::EguiInspect"])
    | other => other)

/-- The derive input: type name, generics, data shape. -/
structure DeriveInput where
  ident : String
  generics : List GenericParam
  data : Data
  deriving DecidableEq, Repr

/-- The generated `impl`: bounded generics and the two procedure bodies. -/
structure DeriveOutput where
  generics : List GenericParam
  inspect : InspectBody
  inspect_mut : InspectBody
  deriving DecidableEq, Repr

/-- `derive_egui_inspect` (lib.rs lines 53-78): bound the generics, generate
the read-only body, then the editable body; a generation failure aborts the
whole derive and no `impl` is produced. -/
def derive_egui_inspect (ti : InternalPathFn) (input : DeriveInput) : Except String DeriveOutput :=
  let generics := add_trait_bounds input.generics
  match inspect_data ti input.data input.ident false, inspect_data ti input.data input.ident true with
  | Except.ok i, Except.ok im => Except.ok ⟨generics, i, im⟩
  | Except.error e, _ => Except.error e
  | _, Except.error e => Except.error e

/-- A live enum instance, for the runtime semantics of the generated enum
code: active variant tag and payload values (payload representation is
arbitrary). -/
structure EnumInst (Value : Type) where
  ident : String
  payload : List Value
  deriving DecidableEq, Repr

/-- Declared types of a payload's fields, in declaration order. -/
def field_tys (fields : Fields) : List String :=
  match fields with
  | Fields.named fs => fs.map (fun f => f.ty)
  | Fields.unnamed fs => fs.map (fun f => f.ty)
  | Fields.unit => []

/-- Evaluation of a constructor-argument expression: `Default::default()` at
declared type `ty` is the default value of `ty` (Rust resolves the call by
the constructor field's type). -/
def eval_expr {Value : Type} (defaultOf : String → Value) (ty : String) (e : Expr) : Value :=
  match e with
  | Expr.default_call => defaultOf ty

/-- Value of the replacement constructor expression carried by a combo
option, evaluated against the variant's declared field types. -/
def eval_combo {Value : Type} (defaultOf : String → Value) (v : Variant) (c : ComboOption) :
    EnumInst Value :=
  ⟨c.ident, List.zipWith (fun ty a => eval_expr defaultOf ty a.2) (field_tys v.fields) c.args⟩

/-- The default-constructed instance of a variant: every payload field holds
its type's default value. -/
def default_construct {Value : Type} (defaultOf : String → Value) (v : Variant) : EnumInst Value :=
  ⟨v.ident, (field_tys v.fields).map defaultOf⟩

/-- Semantics of clicking the selector entry for variant `v`: egui's
`ui.selectable_value(self, value, text)` assigns `value` to `*self` when the
entry is selected, so the new instance is the evaluation of the emitted
replacement expression `variant_combo v`; the previous instance is
overwritten wholesale. -/
def select_variant {Value : Type} (defaultOf : String → Value) (v : Variant)
    (current : EnumInst Value) : EnumInst Value :=
  eval_combo defaultOf v (variant_combo v)

/-- Runtime meaning of the `reflect_variant_name` match (lib.rs lines
107-112, arms from `variant_name_arm`, lines 138-151): the first arm whose
constructor matches the active variant yields that variant's stringified
identifier; the `{..}` / `(..)` patterns never look at the payload. -/
def reflect_variant_name {Value : Type} (variants : List Variant) (inst : EnumInst Value) :
    Option String :=
  (variants.find? (fun v => v.ident == inst.ident)).map (fun v => v.ident)

/-- The always-declining internal-path fallback, used to instantiate
`InternalPathFn` in concrete evaluations. -/
def ti_none : InternalPathFn := fun _ _ _ => none

/-- A field carrying no `#[inspect(...)]` overrides at all. -/
def raw_none : RawAttrs := ⟨none, none, none, none, none, none, none, none, none⟩

/-! ### Helper lemmas -/

theorem zipWith_map_same {α γ δ μ : Type} (f : γ → δ → μ) (g : α → γ) (h : α → δ) :
    ∀ l : List α, List.zipWith f (l.map g) (l.map h) = l.map (fun x => f (g x) (h x)) := by
  intro l
  induction l with
  | nil => rfl
  | cons a l ih => simp [ih]

theorem variant_combo_text (v : Variant) : (variant_combo v).text = v.ident := by
  obtain ⟨id, fields⟩ := v
  cases fields <;> rfl

theorem variant_combo_ident (v : Variant) : (variant_combo v).ident = v.ident := by
  obtain ⟨id, fields⟩ := v
  cases fields <;> rfl

theorem named_flat_eq (ti : InternalPathFn) (use_self mutable : Bool) :
    ∀ fs : List NamedField,
      (inspect_named_fields ti fs use_self mutable).flatten
        = (fs.filter (fun f => !(AttributeArgs.from_field f).hide)).map
            (named_field_call ti use_self mutable) := by
  intro fs
  induction fs with
  | nil => rfl
  | cons f fs ih =>
      by_cases h : (AttributeArgs.from_field f).hide
      · simp [inspect_named_fields, inspect_named_field, h, List.filter] at ih ⊢
        exact ih
      · simp [inspect_named_fields, inspect_named_field, h, List.filter] at ih ⊢
        exact ih

theorem unnamed_flat_eq (use_self mutable : Bool) (fs : List UnnamedField) :
    (inspect_unnamed_fields fs use_self mutable).flatten
      = fs.enum.map (fun p =>
          get_default_function_call ("Field " ++ toString p.1)
            (if use_self then FieldAccess.self_index p.1
             else FieldAccess.deref_ident ("__field" ++ toString p.1)) mutable) := by
  unfold inspect_unnamed_fields
  induction fs.enum with
  | nil => rfl
  | cons p l ih => simp at ih ⊢; exact ih

theorem unnamed_flat_length (use_self mutable : Bool) (fs : List UnnamedField) :
    ((inspect_unnamed_fields fs use_self mutable).flatten).length = fs.length := by
  rw [unnamed_flat_eq]
  simp

theorem shown_label_default (nm : String) (v : FieldAccess) (m : Bool) :
    (get_default_function_call nm v m).shown_label = nm := by
  cases m <;> rfl

/-! ### Claim theorems -/

/-- C3: in the editable procedure for an enum, selecting a variant `v` in the
variant-selector control replaces the current instance with the
default-constructed instance of `v` — every payload field is set to its
type's default value — discarding the previous instance entirely, whatever it
was: the result does not depend on `current`, so no value is transferred or
merged between variants. -/
theorem c3_variant_switch_resets_to_default {Value : Type} (defaultOf : String → Value)
    (v : Variant) (current : EnumInst Value) :
    select_variant defaultOf v current = default_construct defaultOf v := by
  obtain ⟨id, fields⟩ := v
  cases fields with
  | named fs =>
      simp [select_variant, eval_combo, variant_combo, default_construct, field_tys,
            zipWith_map_same, eval_expr]
  | unnamed fs =>
      simp only [select_variant, eval_combo, variant_combo, default_construct, field_tys]
      rw [zipWith_map_same]
      simp [eval_expr]
  | unit => rfl

/-- C6: the read-only enum procedure emits only the current variant's tag
label and no selector control, while the editable procedure emits a selector
whose entries display the symbolic name of every variant in order; the tag
reflection arms are identical in both modes, and the reflected tag is a pure
function of the active variant's identity, ignoring payload contents. -/
theorem c6_enum_selector_and_tag (ti : InternalPathFn) (vs : List Variant) :
    (inspect_enum ti vs false).selector = EnumSelector.label_current
  ∧ (inspect_enum ti vs true).selector = EnumSelector.combo (vs.map variant_combo)
  ∧ (vs.map variant_combo).map (fun c => c.text) = vs.map (fun v => v.ident)
  ∧ (inspect_enum ti vs true).name_arms = (inspect_enum ti vs false).name_arms
  ∧ (∀ (Value : Type) (id : String) (p q : List Value),
      reflect_variant_name vs (EnumInst.mk id p) = reflect_variant_name vs (EnumInst.mk id q))
  ∧ (∀ (Value : Type) (inst : EnumInst Value),
      reflect_variant_name vs inst
        = if vs.any (fun v => v.ident == inst.ident) then some inst.ident else none) := by
  refine ⟨rfl, rfl, ?_, rfl, ?_, ?_⟩
  · simp [List.map_map]
    simp [Function.comp_def, variant_combo_text]
  · intro Value id p q
    rfl
  · intro Value inst
    induction vs with
    | nil => rfl
    | cons v vs ih =>
        by_cases h : v.ident == inst.ident
        · have he : v.ident = inst.ident := by simpa using h
          simp [reflect_variant_name, List.find?, h, he]
        · simp [reflect_variant_name, List.find?, h] at ih ⊢
          exact ih

/-- C8: the attribute schema resolver yields a complete configuration in
which every unset option takes its fixed default: `name` absent, `hide`
false, `no_edit` false, `slider` true, `min` 0.0, `max` 100.0, `multiline`
false, and both custom functions absent; resolution is a total function, so
absence of an override is never an error. -/
theorem c8_resolver_defaults (r : RawAttrs) :
    (r.name = none → (from_raw r).name = none)
  ∧ (r.hide = none → (from_raw r).hide = false)
  ∧ (r.no_edit = none → (from_raw r).no_edit = false)
  ∧ (r.slider = none → (from_raw r).slider = true)
  ∧ (r.min = none → (from_raw r).min = 0)
  ∧ (r.max = none → (from_raw r).max = 100)
  ∧ (r.multiline = none → (from_raw r).multiline = false)
  ∧ (r.custom_func = none → (from_raw r).custom_func = none)
  ∧ (r.custom_func_mut = none → (from_raw r).custom_func_mut = none) := by
  refine ⟨?_, ?_, ?_, ?_, ?_, ?_, ?_, ?_, ?_⟩ <;>
    (intro h; simp [from_raw, h, AttributeArgs.default])

/-- C8 witness: a field with no overrides at all resolves to exactly the
default record. -/
theorem c8_resolver_defaults_witness :
    (from_raw raw_none).name = none ∧ (from_raw raw_none).hide = false
  ∧ (from_raw raw_none).no_edit = false ∧ (from_raw raw_none).slider = true
  ∧ (from_raw raw_none).min = 0 ∧ (from_raw raw_none).max = 100
  ∧ (from_raw raw_none).multiline = false ∧ (from_raw raw_none).custom_func = none
  ∧ (from_raw raw_none).custom_func_mut = none := by
  have h := c8_resolver_defaults raw_none
  exact ⟨h.1 rfl, h.2.1 rfl, h.2.2.1 rfl, h.2.2.2.1 rfl, h.2.2.2.2.1 rfl,
         h.2.2.2.2.2.1 rfl, h.2.2.2.2.2.2.1 rfl, h.2.2.2.2.2.2.2.1 rfl,
         h.2.2.2.2.2.2.2.2 rfl⟩

/-- C9: a union input is rejected outright at generation time with the
`unimplemented!` message, in both modes, and the whole derive aborts with
that error: no rendering procedure bodies are produced at all. -/
theorem c9_union_rejected (ti : InternalPathFn) (nm id : String) (b : Bool)
    (gs : List GenericParam) :
    inspect_data ti Data.union nm b
      = Except.error "not implemented: Unions are not yet supported"
  ∧ derive_egui_inspect ti (DeriveInput.mk id gs Data.union)
      = Except.error "not implemented: Unions are not yet supported" :=
  ⟨rfl, rfl⟩

/-- C10: the generated implementation adds the `egui_inspect::EguiInspect`
bound to every generic type parameter — each declared type parameter reappears
with the bound appended, every type parameter of the output carries the
bound — and the emitted `impl` generics are exactly `add_trait_bounds` of the
input generics, so the generated procedures exist precisely for instantiations
whose type arguments supply the capability. -/
theorem c10_generics_bounded (ti : InternalPathFn) (gs : List GenericParam) (id : String)
    (fs : Fields) :
    (∀ tid bs, GenericParam.type_param tid bs ∈ gs →
        GenericParam.type_param tid (bs ++ ["egui_inspect::EguiInspect"]) ∈ add_trait_bounds gs)
  ∧ (∀ p, p ∈ add_trait_bounds gs → ∀ tid bs, p = GenericParam.type_param tid bs →
        "egui_inspect::EguiInspect" ∈ bs)
  ∧ (∀ out, derive_egui_inspect ti (DeriveInput.mk id gs (Data.struct fs)) = Except.ok out →
        out.generics = add_trait_bounds gs) := by
  refine ⟨?_, ?_, ?_⟩
  · intro tid bs h
    unfold add_trait_bounds
    exact List.mem_map_of_mem _ h
  · intro p hp tid bs hpe
    subst hpe
    rcases List.mem_map.mp hp with ⟨q, hq, he⟩
    cases q with
    | type_param qid qbs =>
        simp at he
        rcases he with ⟨h1, h2⟩
        subst h2
        simp
    | lifetime_param s => simp at he
    | const_param s => simp at he
  · intro out h
    simp [derive_egui_inspect, inspect_data] at h
    subst h
    rfl

/-- C10 witness: concrete generics `<T: Clone, 'a>` on a unit struct. -/
theorem c10_generics_bounded_witness :
    GenericParam.type_param "T" (["Clone"] ++ ["egui_inspect::EguiInspect"])
      ∈ add_trait_bounds [GenericParam.type_param "T" ["Clone"], GenericParam.lifetime_param "a"]
  ∧ "egui_inspect::EguiInspect" ∈ ["Clone", "egui_inspect::EguiInspect"]
  ∧ (DeriveOutput.mk
        (add_trait_bounds [GenericParam.type_param "T" ["Clone"], GenericParam.lifetime_param "a"])
        (InspectBody.struct_body []) (InspectBody.struct_body [])).generics
      = add_trait_bounds
          [GenericParam.type_param "T" ["Clone"], GenericParam.lifetime_param "a"] := by
  have h := c10_generics_bounded ti_none
    [GenericParam.type_param "T" ["Clone"], GenericParam.lifetime_param "a"] "S" Fields.unit
  exact ⟨h.1 "T" ["Clone"] (by simp),
         h.2.1 (GenericParam.type_param "T" (["Clone"] ++ ["egui_inspect::EguiInspect"]))
           (by simp [add_trait_bounds]) "T" ["Clone", "egui_inspect::EguiInspect"] rfl,
         h.2.2 _ rfl⟩

/-- A positional field marked `hide`, for the C1 counterexample. -/
def tuple_field_hidden : UnnamedField :=
  ⟨"u32", { raw_none with hide := some true }⟩

/-- C1 counterexample: a positional field whose resolved configuration has
`hide = true` still produces a rendering action in both procedures, because
`inspect_unnamed_fields` never consults the field attributes. -/
theorem c1_counterexample :
    (from_raw tuple_field_hidden.attrs).hide = true
  ∧ (inspect_unnamed_fields [tuple_field_hidden] true false).flatten
      = [RenderCall.inspect (FieldAccess.self_index 0) "Field 0"]
  ∧ (inspect_unnamed_fields [tuple_field_hidden] true true).flatten
      = [RenderCall.inspect_mut (FieldAccess.self_index 0) "Field 0"] := by
  refine ⟨rfl, ?_, ?_⟩ <;> decide

/-- C1 (amended): for every NAMED field (struct fields and enum-variant named
payload fields, i.e. both `use_self` contexts) whose resolved configuration
has `hide = true`, no rendering action for that field appears in either
procedure regardless of every other setting — dropping all hidden named
fields leaves the emitted statements unchanged; positional fields, however,
are all rendered: their configuration (including `hide`) is ignored. -/
theorem c1_hidden_named_fields_never_rendered (ti : InternalPathFn) (fs : List NamedField)
    (ufs : List UnnamedField) (use_self mutable : Bool) :
    (inspect_named_fields ti fs use_self mutable).flatten
      = (inspect_named_fields ti (fs.filter (fun f => !(AttributeArgs.from_field f).hide))
          use_self mutable).flatten
  ∧ ((inspect_unnamed_fields ufs use_self mutable).flatten).length = ufs.length := by
  constructor
  · rw [named_flat_eq, named_flat_eq]
    have hff : (fs.filter (fun f => !(AttributeArgs.from_field f).hide)).filter
        (fun f => !(AttributeArgs.from_field f).hide)
        = fs.filter (fun f => !(AttributeArgs.from_field f).hide) :=
      List.filter_eq_self.mpr (fun a ha => (List.mem_filter.mp ha).2)
    rw [hff]
  · exact unnamed_flat_length use_self mutable ufs

/-- A positional field with a custom writer, for the C2 counterexample. -/
def tuple_field_writer : UnnamedField :=
  ⟨"u32", { raw_none with custom_func_mut := some "my_writer" }⟩

/-- C2 counterexample: a positional field with `custom_func_mut` set,
`no_edit` false and the editable mode invokes the standard dispatch, not the
custom writer — `inspect_unnamed_fields` never consults custom functions. -/
theorem c2_counterexample :
    (from_raw tuple_field_writer.attrs).no_edit = false
  ∧ (from_raw tuple_field_writer.attrs).custom_func_mut = some "my_writer"
  ∧ (inspect_unnamed_fields [tuple_field_writer] true true).flatten
      = [RenderCall.inspect_mut (FieldAccess.self_index 0) "Field 0"]
  ∧ (RenderCall.inspect_mut (FieldAccess.self_index 0) "Field 0").is_custom_mut = false := by
  refine ⟨rfl, rfl, ?_, rfl⟩
  decide

/-- C2 (amended): for every NAMED field that is not hidden, the custom
override precedence is evaluated independently per mode: (1) in editable mode
with `no_edit` false and `custom_func_mut` set, exactly the custom writer is
invoked; (2) in read-only mode, or in editable mode with `no_edit` true, a
set `custom_func` is invoked; (3) otherwise the standard dispatch
(internal-path fallback, then the default `EguiInspect` call) is used, at the
forced-read-only mode where applicable; in particular a custom writer is
never invoked for a `no_edit` field, even in the editable procedure.
Positional fields never consult custom functions at all. -/
theorem c2_custom_precedence (ti : InternalPathFn) (use_self : Bool) (f : NamedField)
    (hh : (AttributeArgs.from_field f).hide = false) :
    (∀ w, (AttributeArgs.from_field f).no_edit = false →
        (AttributeArgs.from_field f).custom_func_mut = some w →
        inspect_named_field ti use_self true f
          = [RenderCall.custom_mut w (FieldAccess.self_named f.ident)
              (resolved_label (AttributeArgs.from_field f) f.ident)])
  ∧ (∀ r, (AttributeArgs.from_field f).custom_func = some r →
        inspect_named_field ti use_self false f
          = [RenderCall.custom_read r (FieldAccess.self_named f.ident)
              (resolved_label (AttributeArgs.from_field f) f.ident)])
  ∧ (∀ r, (AttributeArgs.from_field f).no_edit = true →
        (AttributeArgs.from_field f).custom_func = some r →
        inspect_named_field ti use_self true f
          = [RenderCall.custom_read r (FieldAccess.self_named f.ident)
              (resolved_label (AttributeArgs.from_field f) f.ident)])
  ∧ ((AttributeArgs.from_field f).custom_func = none →
        inspect_named_field ti use_self false f
          = [standard_field_call ti f use_self false (AttributeArgs.from_field f)])
  ∧ ((AttributeArgs.from_field f).no_edit = false →
        (AttributeArgs.from_field f).custom_func_mut = none →
        inspect_named_field ti use_self true f
          = [standard_field_call ti f use_self true (AttributeArgs.from_field f)])
  ∧ ((AttributeArgs.from_field f).no_edit = true →
        (AttributeArgs.from_field f).custom_func = none →
        inspect_named_field ti use_self true f
          = [standard_field_call ti f use_self false (AttributeArgs.from_field f)])
  ∧ ((AttributeArgs.from_field f).no_edit = true →
        ∀ c ∈ inspect_named_field ti use_self true f, c.is_custom_mut = false) := by
  refine ⟨?_, ?_, ?_, ?_, ?_, ?_, ?_⟩
  · intro w h1 h2
    simp [inspect_named_field, named_field_call, handle_custom_func, hh, h1, h2]
  · intro r h2
    simp [inspect_named_field, named_field_call, handle_custom_func, hh, h2]
  · intro r h1 h2
    simp [inspect_named_field, named_field_call, handle_custom_func, hh, h1, h2]
  · intro h2
    simp [inspect_named_field, named_field_call, handle_custom_func, hh, h2]
  · intro h1 h2
    simp [inspect_named_field, named_field_call, handle_custom_func, hh, h1, h2]
  · intro h1 h2
    simp [inspect_named_field, named_field_call, handle_custom_func, hh, h1, h2]
  · intro h1 c hc
    rcases hf : (AttributeArgs.from_field f).custom_func with _ | r
    · simp [inspect_named_field, named_field_call, handle_custom_func, hh, h1, hf] at hc
      subst hc
      rcases hti : ti f false (AttributeArgs.from_field f) with _ | w <;>
        simp [standard_field_call, hti, get_default_function_call, RenderCall.is_custom_mut]
    · simp [inspect_named_field, named_field_call, handle_custom_func, hh, h1, hf] at hc
      subst hc
      rfl

/-- Named fields for the C2 witness: one with a custom writer, one forced
read-only with a custom reader. -/
def named_field_writer : NamedField :=
  ⟨"a", "u32", { raw_none with custom_func_mut := some "my_writer" }⟩

/-- Companion to `named_field_writer` for the C2 witness. -/
def named_field_reader : NamedField :=
  ⟨"b", "u32", { raw_none with custom_func := some "my_reader", no_edit := some true }⟩

/-- C2 witness: concrete named fields exercising clauses (1) and (2). -/
theorem c2_custom_precedence_witness :
    inspect_named_field ti_none true true named_field_writer
      = [RenderCall.custom_mut "my_writer" (FieldAccess.self_named "a") "a"]
  ∧ inspect_named_field ti_none true true named_field_reader
      = [RenderCall.custom_read "my_reader" (FieldAccess.self_named "b") "b"]
  ∧ inspect_named_field ti_none true false named_field_reader
      = [RenderCall.custom_read "my_reader" (FieldAccess.self_named "b") "b"] := by
  have hw := c2_custom_precedence ti_none true named_field_writer rfl
  have hr := c2_custom_precedence ti_none true named_field_reader rfl
  exact ⟨hw.1 "my_writer" rfl rfl, hr.2.2.1 "my_reader" rfl rfl, hr.2.1 "my_reader" rfl⟩

/-- A positional field marked `no_edit`, for the C4 counterexample. -/
def tuple_field_no_edit : UnnamedField :=
  ⟨"String", { raw_none with no_edit := some true }⟩

/-- C4 counterexample: a positional field with `no_edit = true` and no custom
functions is still rendered mutably by the editable procedure, differing from
the read-only procedure. -/
theorem c4_counterexample :
    (from_raw tuple_field_no_edit.attrs).no_edit = true
  ∧ (from_raw tuple_field_no_edit.attrs).custom_func = none
  ∧ (from_raw tuple_field_no_edit.attrs).custom_func_mut = none
  ∧ inspect_unnamed_fields [tuple_field_no_edit] true true
      ≠ inspect_unnamed_fields [tuple_field_no_edit] true false := by
  refine ⟨rfl, rfl, rfl, ?_⟩
  decide

/-- C4 (amended): for every NAMED field with `no_edit = true` and no custom
functions set, the editable procedure emits exactly the statement the
read-only procedure emits — when the internal-path fallback declines, that
statement is the read-only `EguiInspect::inspect` entry point with the
resolved display name; positional fields ignore `no_edit` and are rendered
mutably by the editable procedure. -/
theorem c4_no_edit_matches_readonly (ti : InternalPathFn) (use_self : Bool) (f : NamedField)
    (h1 : (AttributeArgs.from_field f).no_edit = true)
    (h2 : (AttributeArgs.from_field f).custom_func = none)
    (h3 : (AttributeArgs.from_field f).custom_func_mut = none) :
    inspect_named_field ti use_self true f = inspect_named_field ti use_self false f
  ∧ ((AttributeArgs.from_field f).hide = false →
      ti f false (AttributeArgs.from_field f) = none →
      inspect_named_field ti use_self true f
        = [RenderCall.inspect
            (if use_self then FieldAccess.self_named f.ident else FieldAccess.deref_ident f.ident)
            (resolved_label (AttributeArgs.from_field f) f.ident)]) := by
  constructor
  · simp [inspect_named_field, named_field_call, h1]
  · intro hh hti
    simp [inspect_named_field, named_field_call, handle_custom_func, standard_field_call,
          get_default_function_call, h1, h2, h3, hh, hti]

/-- A named field marked `no_edit`, for the C4 witness. -/
def named_field_no_edit : NamedField :=
  ⟨"speed", "f32", { raw_none with no_edit := some true }⟩

/-- C4 witness: a concrete `no_edit` named field renders identically — via
the read-only entry point — in both procedures. -/
theorem c4_no_edit_matches_readonly_witness :
    inspect_named_field ti_none true true named_field_no_edit
      = inspect_named_field ti_none true false named_field_no_edit
  ∧ inspect_named_field ti_none true true named_field_no_edit
      = [RenderCall.inspect (FieldAccess.self_named "speed") "speed"] := by
  have h := c4_no_edit_matches_readonly ti_none true named_field_no_edit rfl rfl rfl
  exact ⟨h.1, h.2 rfl rfl⟩

/-- Positional fields for the C5 counterexample: the second one is hidden. -/
def tuple_fields_one_hidden : List UnnamedField :=
  [⟨"u32", raw_none⟩, ⟨"bool", { raw_none with hide := some true }⟩]

/-- C5 counterexample: in a positional struct with one hidden field among
two, the emitted sequence still has one action per declared field — the
hidden field is not skipped, so the output does not equal the sequence over
non-hidden fields only. -/
theorem c5_counterexample :
    (tuple_fields_one_hidden.filter (fun f => !(from_raw f.attrs).hide)).length = 1
  ∧ ((inspect_unnamed_fields tuple_fields_one_hidden true false).flatten).length = 2 := by
  constructor
  · decide
  · decide

/-- C5 (amended): for named-field shapes, the emitted sequence of per-field
statements equals the declaration-order sequence of the non-hidden fields,
each visited exactly once (so reordering declared fields reorders the output
identically); for positional shapes, the emitted sequence is one statement
per declared field, in declaration order, hidden or not. -/
theorem c5_declaration_order (ti : InternalPathFn) (fs : List NamedField)
    (ufs : List UnnamedField) (use_self mutable : Bool) :
    (inspect_named_fields ti fs use_self mutable).flatten
      = (fs.filter (fun f => !(AttributeArgs.from_field f).hide)).map
          (named_field_call ti use_self mutable)
  ∧ (inspect_unnamed_fields ufs use_self mutable).flatten
      = ufs.enum.map (fun p =>
          get_default_function_call ("Field " ++ toString p.1)
            (if use_self then FieldAccess.self_index p.1
             else FieldAccess.deref_ident ("__field" ++ toString p.1)) mutable) :=
  ⟨named_flat_eq ti use_self mutable fs, unnamed_flat_eq use_self mutable ufs⟩

/-- A positional field with a `name` override, for the C7 counterexample. -/
def tuple_field_named : UnnamedField :=
  ⟨"u16", { raw_none with name := some "Count" }⟩

/-- C7 counterexample: a positional field carrying `name = "Count"` is still
labeled with the synthesized ordinal name, because `inspect_unnamed_fields`
never reads the attributes. -/
theorem c7_counterexample :
    (from_raw tuple_field_named.attrs).name = some "Count"
  ∧ ((inspect_unnamed_fields [tuple_field_named] true false).flatten).map
      RenderCall.shown_label = ["Field 0"]
  ∧ ("Field 0" : String) ≠ "Count" := by
  refine ⟨rfl, ?_, ?_⟩ <;> decide

/-- C7 (amended): every positional field at index `i` is rendered under the
synthesized display name `"Field i"`, in both modes and both `use_self`
contexts, unconditionally — the field's configuration, including
`display_name`, is never consulted. -/
theorem c7_positional_labels (fs : List UnnamedField) (use_self mutable : Bool) :
    ((inspect_unnamed_fields fs use_self mutable).flatten).map RenderCall.shown_label
      = (List.range fs.length).map (fun i => "Field " ++ toString i) := by
  rw [unnamed_flat_eq, List.map_map]
  have h1 : ((fun c => RenderCall.shown_label c) ∘
      (fun p : Nat × UnnamedField =>
        get_default_function_call ("Field " ++ toString p.1)
          (if use_self then FieldAccess.self_index p.1
           else FieldAccess.deref_ident ("__field" ++ toString p.1)) mutable))
      = fun p : Nat × UnnamedField => "Field " ++ toString p.1 := by
    funext p
    exact shown_label_default _ _ _
  rw [h1]
  have h2 : (fun p : Nat × UnnamedField => "Field " ++ toString p.1)
      = (fun i : Nat => "Field " ++ toString i) ∘ Prod.fst := rfl
  rw [h2, ← List.map_map, List.enum_map_fst]

end EguiInspectDerive
